import Mathlib

/-!
Verification of the kOS kitchen/pantry subsystem (davidhonghikim/kos_v1).

This file gives a shallow embedding, translated from the Python sources, of:
* the pantry metadata store (`kitchen/pantry/core/pantry_manager.py`),
* the access-control layer (`kitchen/pantry/core/access_control.py`),
* the validation system (`kitchen/pantry/core/validation_system.py`),
* the registration facade (`kitchen/pantry/operations/pantry_system.py`),
* the dependency tracker (`kitchen/pantry/core/dependency_tracker.py`),
* the step executor (`kitchen/core/step_executor.py`) with its recipe `Step`
  model (`kitchen/core/recipe_parser.py`),
* the orchestrator's step loop (`kitchen/core/kitchen_engine.py`),
and proves properties of these definitions.

Modelling conventions: Python dicts keyed by strings become association
lists; the SQLite table of ingredients becomes a list of records (its
`id TEXT PRIMARY KEY` constraint becomes an explicit duplicate check on
insert); raised exceptions become `Except.error`; wall-clock timestamps are
carried as opaque strings or omitted where noted; character predicates
(`str.islower`, `str.isalnum`, `str.isdigit`) are modelled at ASCII
granularity, which covers every identifier the system handles.
-/

namespace KosKitchen

/-- Dynamic values passed in parameter maps and execution contexts
(a fragment of Python's `Any` sufficient for the executable seams). -/
inductive Value
  | str (s : String)
  | int (n : Int)
  | bool (b : Bool)
  | vnone
deriving DecidableEq

/-- Execution context / parameter map: a string-keyed association list
standing for a Python dict. -/
abbrev Ctx := List (String × Value)

/-- Dict lookup `context[key]` returning `none` when the key is absent. -/
def ctx_lookup (context : Ctx) (k : String) : Option Value :=
  (context.find? (fun p => p.1 == k)).map (fun p => p.2)

/-- IngredientCategory from `pantry/core/pantry_manager.py`. -/
inductive IngredientCategory
  | TASKS | TOOLS | MODULES | SKILLS | CONFIGS | SCHEMAS
deriving DecidableEq

/-- AccessLevel from `pantry/core/pantry_manager.py`. -/
inductive AccessLevel
  | PUBLIC | PROTECTED | ADMIN
deriving DecidableEq

/-- Permission from `pantry/core/access_control.py`. -/
inductive Permission
  | READ | WRITE | DELETE | ADMIN
deriving DecidableEq

/-- IngredientMetadata from `pantry/core/pantry_manager.py`. The `created`
and `updated` timestamps are carried as opaque strings. -/
structure IngredientMetadata where
  id : String
  name : String
  description : String
  version : String
  category : IngredientCategory
  dependencies : List String
  tags : List String
  author : String
  created : String
  updated : String
  access_level : AccessLevel := AccessLevel.PUBLIC
deriving DecidableEq

/-- The pantry store: the rows of the SQLite `ingredients` table. -/
abbrev Store := List IngredientMetadata

/-- PantryManager.get_ingredient: `SELECT * FROM ingredients WHERE id = ?`
followed by `fetchone()`; with the primary-key constraint this is the unique
(here: first) row with that id. -/
def get_ingredient (store : Store) (ingredient_id : String) :
    Option IngredientMetadata :=
  store.find? (fun i => i.id == ingredient_id)

/-- PantryManager.register_ingredient: a plain `INSERT INTO ingredients`.
The `id TEXT PRIMARY KEY` constraint makes the insert raise
`IntegrityError` when the id already exists; the `except` clause turns that
into a `False` return with nothing persisted. No validation happens here. -/
def register_ingredient (store : Store) (ing : IngredientMetadata) :
    Bool × Store :=
  if store.any (fun i => i.id == ing.id) then (false, store)
  else (true, store ++ [ing])

/-- PantryManager.list_ingredients with its optional category filter. -/
def list_ingredients (store : Store) (category : Option IngredientCategory) :
    Store :=
  match category with
  | none => store
  | some c => store.filter (fun i => i.category == c)

/-- AccessControl._is_authenticated: `bool(user_id and user_id != "anonymous")`
(the empty string is falsy in Python). -/
def is_authenticated (user_id : String) : Bool :=
  user_id != "" && user_id != "anonymous"

/-- AccessControl._is_admin: `user_id in ["admin", "root", "system"]`. -/
def is_admin (user_id : String) : Bool :=
  user_id == "admin" || user_id == "root" || user_id == "system"

/-- AccessControl.can_access: looks the ingredient up, denies when absent,
then evaluates the rule chain in source order. -/
def can_access (store : Store) (user_id ingredient_id : String)
    (permission : Permission) : Bool :=
  match get_ingredient store ingredient_id with
  | none => false
  | some ingredient =>
    if ingredient.access_level == AccessLevel.PUBLIC
        && permission == Permission.READ then true
    else if is_admin user_id then true
    else if ingredient.access_level == AccessLevel.PROTECTED then
      is_authenticated user_id
    else if ingredient.access_level == AccessLevel.ADMIN then
      is_admin user_id
    else false

/-- Modelled from the spec: the access decision for a registered ingredient
as the spec's first-match rule list states it — (a) public level and read
permission allow; (b) an admin identity allows; (c) protected level allows
exactly the non-anonymous identities; (d) admin level allows exactly the
admin identities; (e) otherwise deny. Stated independently of the store so
it can be compared against `can_access`. -/
def spec_access_decision (user_id : String) (ingredient : IngredientMetadata)
    (permission : Permission) : Bool :=
  if ingredient.access_level == AccessLevel.PUBLIC
      && permission == Permission.READ then true
  else if is_admin user_id then true
  else if ingredient.access_level == AccessLevel.PROTECTED then
    is_authenticated user_id
  else if ingredient.access_level == AccessLevel.ADMIN then
    is_admin user_id
  else false

/-- ASCII model of Python's `str.islower()`: at least one cased character
and no uppercase character. -/
def py_islower (s : String) : Bool :=
  s.toList.any (fun c => c.isAlpha) && s.toList.all (fun c => !c.isUpper)

/-- ValidationSystem._is_valid_id: lowercase, contains a dot, no space,
only alphanumerics plus `.`, `_`, `-`. -/
def is_valid_id (ingredient_id : String) : Bool :=
  py_islower ingredient_id
    && decide ('.' ∈ ingredient_id.toList)
    && !(decide (' ' ∈ ingredient_id.toList))
    && ingredient_id.toList.all
        (fun c => c.isAlphanum || c == '.' || c == '_' || c == '-')

/-- ValidationSystem._is_valid_version: split on dots, at least two parts,
first two parts all digits (Python's `isdigit` is false on the empty
string). -/
def is_valid_version (version : String) : Bool :=
  let parts := version.splitOn "."
  decide (2 ≤ parts.length)
    && (parts.take 2).all
        (fun part => part != "" && part.toList.all (fun c => c.isDigit))

/-- ValidationResult from `pantry/core/validation_system.py`; the wall-clock
`timestamp` field is not modelled. -/
structure ValidationResult where
  ingredient_id : String
  valid : Bool
  errors : List String
  warnings : List String
deriving DecidableEq

/-- ValidationSystem.validate_ingredient, with errors and warnings collected
in source order. The source's `isinstance(category, IngredientCategory)`
check always passes in this typed model. -/
def validate_ingredient (store : Store) (ing : IngredientMetadata) :
    ValidationResult :=
  let errors :=
    (if ing.id = "" then ["Missing ingredient ID"]
     else if !is_valid_id ing.id then
       ["Invalid ingredient ID format: " ++ ing.id]
     else []) ++
    (if ing.name = "" then ["Missing ingredient name"] else []) ++
    (if ing.version = "" then ["Missing ingredient version"]
     else if !is_valid_version ing.version then
       ["Invalid version format: " ++ ing.version]
     else [])
  let warnings :=
    (if ing.description = "" then ["Missing ingredient description"] else []) ++
    (if ing.author = "" then ["Missing ingredient author"] else []) ++
    (ing.dependencies.filter (fun dep => (get_ingredient store dep).isNone)).map
      (fun dep => "Missing dependency: " ++ dep) ++
    (if ing.tags.isEmpty then ["No tags specified"] else [])
  { ingredient_id := ing.id
    valid := errors.isEmpty
    errors := errors
    warnings := warnings }

/-- PantrySystem.register_ingredient (`pantry/operations/pantry_system.py`):
validate first and report failure without persisting; on a successful
insert the facade then calls `self.ingredient_registry.update_index`, a
method `IngredientRegistry` does not define, so that path raises
`AttributeError` (modelled as `Except.error`). -/
def pantry_system_register_ingredient (store : Store)
    (ing : IngredientMetadata) : Except String (Bool × Store) :=
  let validation := validate_ingredient store ing
  if !validation.valid then Except.ok (false, store)
  else
    let result := register_ingredient store ing
    if result.1 then
      Except.error "AttributeError: 'IngredientRegistry' object has no attribute 'update_index'"
    else Except.ok (false, result.2)

/-- DependencyTracker.get_dependencies: the registered ingredient's direct
dependency list, or `[]` when the id is absent. -/
def get_dependencies (store : Store) (ingredient_id : String) : List String :=
  match get_ingredient store ingredient_id with
  | some ing => ing.dependencies
  | none => []

/-- State of the recursive resolution in
DependencyTracker.resolve_dependencies: the `visited` set (as a list) and
the `resolved` accumulator, in that order. -/
abbrev ResolveState := List String × List String

mutual

/-- The inner `resolve_recursive` of DependencyTracker.resolve_dependencies:
skip an already-visited id, otherwise mark it visited, recurse into its
direct dependencies first, then append it to `resolved` (post-order). The
Python recursion terminates because `visited` only grows; the embedding
makes that explicit with a fuel argument that `resolve_dependencies` below
instantiates to a bound strictly larger than any possible recursion depth,
so the fuel-exhausted branch is never taken from the top-level entry. -/
def resolveStep (store : Store) : Nat → ResolveState → String → ResolveState
  | 0, st, _ => st
  | fuel + 1, st, ing_id =>
    if ing_id ∈ st.1 then st
    else
      ((resolveList store fuel (ing_id :: st.1, st.2)
          (get_dependencies store ing_id)).1,
       (resolveList store fuel (ing_id :: st.1, st.2)
          (get_dependencies store ing_id)).2 ++ [ing_id])
termination_by fuel _ _ => (fuel, 0)

/-- The `for dep in self.get_dependencies(ing_id)` loop inside
`resolve_recursive`, threading the state left to right. -/
def resolveList (store : Store) :
    Nat → ResolveState → List String → ResolveState
  | _, st, [] => st
  | fuel, st, dep :: deps =>
    resolveList store fuel (resolveStep store fuel st dep) deps
termination_by fuel _ deps => (fuel, deps.length + 1)

end

/-- Fuel that strictly exceeds the depth the recursion can reach: every
nested active call below the root visits a distinct id drawn from some
registered ingredient's dependency list. -/
def totalFuel (store : Store) : Nat :=
  (store.map (fun i => i.dependencies.length)).sum + 2

/-- DependencyTracker.resolve_dependencies: run `resolve_recursive` on the
target with empty state and drop the last element of `resolved`
(`return resolved[:-1]`, excluding the ingredient itself). -/
def resolve_dependencies (store : Store) (ingredient_id : String) :
    List String :=
  (resolveStep store (totalFuel store) ([], []) ingredient_id).2.dropLast

/-- DependencyTracker.check_conflicts: a circular-dependency conflict when
the id occurs in its own resolved set, plus a missing-dependency conflict
for each direct dependency absent from the store. -/
def check_conflicts (store : Store) (ingredient_id : String) : List String :=
  let dependencies := resolve_dependencies store ingredient_id
  (if ingredient_id ∈ dependencies then
     ["Circular dependency detected for " ++ ingredient_id]
   else []) ++
    ((get_dependencies store ingredient_id).filter
        (fun dep => (get_ingredient store dep).isNone)).map
      (fun dep => "Missing dependency: " ++ dep)

/-! Structural lemmas about the resolution fold. The first block is generic
in the folded function, so each per-fuel fact about `resolveStep` can feed
it its own induction hypothesis. -/

theorem foldl_visited_mono (f : ResolveState → String → ResolveState)
    (hmono : ∀ st d, st.1 ⊆ (f st d).1) :
    ∀ (ds : List String) (st : ResolveState), st.1 ⊆ (List.foldl f st ds).1 := by
  intro ds
  induction ds with
  | nil => intro st x hx; simpa using hx
  | cons d ds ih =>
    intro st x hx
    simp only [List.foldl_cons]
    exact ih (f st d) (hmono st d hx)

theorem foldl_acc_extends (f : ResolveState → String → ResolveState)
    (hext : ∀ st d, ∃ t, (f st d).2 = st.2 ++ t) :
    ∀ (ds : List String) (st : ResolveState),
      ∃ t, (List.foldl f st ds).2 = st.2 ++ t := by
  intro ds
  induction ds with
  | nil => intro st; exact ⟨[], by simp⟩
  | cons d ds ih =>
    intro st
    obtain ⟨t1, h1⟩ := hext st d
    obtain ⟨t2, h2⟩ := ih (f st d)
    refine ⟨t1 ++ t2, ?_⟩
    simp only [List.foldl_cons]
    rw [h2, h1, List.append_assoc]

theorem foldl_acc_new (f : ResolveState → String → ResolveState)
    (hmono : ∀ st d, st.1 ⊆ (f st d).1)
    (hnew : ∀ st d e, e ∈ (f st d).2 → e ∈ st.2 ∨ e ∉ st.1) :
    ∀ (ds : List String) (st : ResolveState) (e : String),
      e ∈ (List.foldl f st ds).2 → e ∈ st.2 ∨ e ∉ st.1 := by
  intro ds
  induction ds with
  | nil => intro st e he; left; simpa using he
  | cons d ds ih =>
    intro st e he
    simp only [List.foldl_cons] at he
    rcases ih (f st d) e he with h | h
    · exact hnew st d e h
    · right; intro hx; exact h (hmono st d hx)

theorem foldl_visited_covered (f : ResolveState → String → ResolveState)
    (hext : ∀ st d, ∃ t, (f st d).2 = st.2 ++ t)
    (hcov : ∀ st d e, e ∈ (f st d).1 → e ∈ st.1 ∨ e ∈ (f st d).2) :
    ∀ (ds : List String) (st : ResolveState) (e : String),
      e ∈ (List.foldl f st ds).1 → e ∈ st.1 ∨ e ∈ (List.foldl f st ds).2 := by
  intro ds
  induction ds with
  | nil => intro st e he; left; simpa using he
  | cons d ds ih =>
    intro st e he
    simp only [List.foldl_cons] at he ⊢
    rcases ih (f st d) e he with h | h
    · rcases hcov st d e h with h' | h'
      · exact Or.inl h'
      · right
        obtain ⟨t, ht⟩ := foldl_acc_extends f hext ds (f st d)
        rw [ht]
        exact List.mem_append_left t h'
    · exact Or.inr h

theorem foldl_visits_elem (f : ResolveState → String → ResolveState)
    (hmono : ∀ st d, st.1 ⊆ (f st d).1)
    (hhit : ∀ st d, d ∈ (f st d).1) :
    ∀ (ds : List String) (st : ResolveState) (d : String),
      d ∈ ds → d ∈ (List.foldl f st ds).1 := by
  intro ds
  induction ds with
  | nil => intro st d h; simp at h
  | cons d0 ds ih =>
    intro st d h
    simp only [List.foldl_cons]
    rcases List.mem_cons.mp h with rfl | h
    · exact foldl_visited_mono f hmono ds (f st d) (hhit st d)
    · exact ih (f st d0) d h

theorem resolveList_eq_foldl (store : Store) (fuel : Nat) :
    ∀ (ds : List String) (st : ResolveState),
      resolveList store fuel st ds = List.foldl (resolveStep store fuel) st ds := by
  intro ds
  induction ds with
  | nil => intro st; simp [resolveList]
  | cons d ds ih =>
    intro st
    simp only [resolveList, List.foldl_cons]
    exact ih _

theorem resolveStep_visited_mono (store : Store) :
    ∀ (fuel : Nat) (st : ResolveState) (i : String),
      st.1 ⊆ (resolveStep store fuel st i).1 := by
  intro fuel
  induction fuel with
  | zero => intro st i x hx; simpa [resolveStep] using hx
  | succ fuel ih =>
    intro st i x hx
    by_cases h : i ∈ st.1
    · simpa [resolveStep, h] using hx
    · simp only [resolveStep, if_neg h, resolveList_eq_foldl]
      exact foldl_visited_mono (resolveStep store fuel) (fun st d => ih st d)
        (get_dependencies store i) (i :: st.1, st.2)
        (List.mem_cons_of_mem _ hx)

theorem resolveStep_acc_extends (store : Store) :
    ∀ (fuel : Nat) (st : ResolveState) (i : String),
      ∃ t, (resolveStep store fuel st i).2 = st.2 ++ t := by
  intro fuel
  induction fuel with
  | zero => intro st i; exact ⟨[], by simp [resolveStep]⟩
  | succ fuel ih =>
    intro st i
    by_cases h : i ∈ st.1
    · exact ⟨[], by simp [resolveStep, h]⟩
    · obtain ⟨t, ht⟩ := foldl_acc_extends (resolveStep store fuel)
        (fun st d => ih st d) (get_dependencies store i) (i :: st.1, st.2)
      refine ⟨t ++ [i], ?_⟩
      simp only [resolveStep, if_neg h, resolveList_eq_foldl]
      rw [ht, List.append_assoc]

theorem resolveStep_acc_new (store : Store) :
    ∀ (fuel : Nat) (st : ResolveState) (i e : String),
      e ∈ (resolveStep store fuel st i).2 → e ∈ st.2 ∨ e ∉ st.1 := by
  intro fuel
  induction fuel with
  | zero => intro st i e he; left; simpa [resolveStep] using he
  | succ fuel ih =>
    intro st i e he
    by_cases h : i ∈ st.1
    · left; simpa [resolveStep, h] using he
    · simp only [resolveStep, if_neg h, resolveList_eq_foldl] at he
      rcases List.mem_append.mp he with he' | he'
      · rcases foldl_acc_new (resolveStep store fuel)
            (fun st d => resolveStep_visited_mono store fuel st d)
            (fun st d e => ih st d e)
            (get_dependencies store i) (i :: st.1, st.2) e he' with h2 | h2
        · exact Or.inl h2
        · right; intro hx; exact h2 (List.mem_cons_of_mem _ hx)
      · right
        have : e = i := by simpa using he'
        subst this
        exact h

theorem resolveStep_visited_covered (store : Store) :
    ∀ (fuel : Nat) (st : ResolveState) (i e : String),
      e ∈ (resolveStep store fuel st i).1 →
        e ∈ st.1 ∨ e ∈ (resolveStep store fuel st i).2 := by
  intro fuel
  induction fuel with
  | zero => intro st i e he; left; simpa [resolveStep] using he
  | succ fuel ih =>
    intro st i e he
    by_cases h : i ∈ st.1
    · left; simpa [resolveStep, h] using he
    · simp only [resolveStep, if_neg h, resolveList_eq_foldl] at he ⊢
      rcases foldl_visited_covered (resolveStep store fuel)
          (fun st d => resolveStep_acc_extends store fuel st d)
          (fun st d e => ih st d e)
          (get_dependencies store i) (i :: st.1, st.2) e he with h2 | h2
      · rcases List.mem_cons.mp h2 with rfl | h3
        · right; simp
        · exact Or.inl h3
      · right
        exact List.mem_append_left _ h2

theorem resolveStep_visits_self (store : Store) (fuel : Nat)
    (st : ResolveState) (i : String) (hfuel : 0 < fuel) :
    i ∈ (resolveStep store fuel st i).1 := by
  cases fuel with
  | zero => omega
  | succ fuel =>
    by_cases h : i ∈ st.1
    · simp [resolveStep, h]
    · simp only [resolveStep, if_neg h, resolveList_eq_foldl]
      exact foldl_visited_mono (resolveStep store fuel)
        (fun st d => resolveStep_visited_mono store fuel st d)
        (get_dependencies store i) (i :: st.1, st.2) (List.mem_cons_self _ _)

/-- Shape of the top-level resolution call: the traversal starts from the
empty state, so the target id is never skipped; it is appended exactly once,
as the very last element, and `resolved[:-1]` removes precisely it. -/
theorem resolveStep_top (store : Store) (i : String) :
    resolve_dependencies store i =
      (resolveList store ((store.map (fun x => x.dependencies.length)).sum + 1)
        ([i], []) (get_dependencies store i)).2
  ∧ (resolveStep store (totalFuel store) ([], []) i).2 =
      resolve_dependencies store i ++ [i]
  ∧ i ∉ resolve_dependencies store i := by
  have hnot : i ∉ (([], []) : ResolveState).1 := by simp
  have hunfold : resolveStep store (totalFuel store) ([], []) i =
      ((resolveList store ((store.map (fun x => x.dependencies.length)).sum + 1)
          (i :: ([] : List String), ([] : List String))
          (get_dependencies store i)).1,
       (resolveList store ((store.map (fun x => x.dependencies.length)).sum + 1)
          (i :: ([] : List String), ([] : List String))
          (get_dependencies store i)).2 ++ [i]) := by
    show resolveStep store
        (((store.map (fun x => x.dependencies.length)).sum + 1) + 1) ([], []) i = _
    rw [resolveStep]
    simp
  have hacc : resolve_dependencies store i =
      (resolveList store ((store.map (fun x => x.dependencies.length)).sum + 1)
        ([i], []) (get_dependencies store i)).2 := by
    unfold resolve_dependencies
    rw [hunfold]
    simp
  refine ⟨hacc, ?_, ?_⟩
  · rw [hunfold, hacc]
  · rw [hacc, resolveList_eq_foldl]
    intro hmem
    rcases foldl_acc_new
        (resolveStep store ((store.map (fun x => x.dependencies.length)).sum + 1))
        (fun st d => resolveStep_visited_mono store _ st d)
        (fun st d e => resolveStep_acc_new store _ st d e)
        (get_dependencies store i) ([i], []) i hmem with h | h
    · simp at h
    · exact h (by simp)

/-- An executable ingredient as the step executor sees it
(`kitchen/core/pantry_manager.py`): the parameter names of its Python
signature (for the `inspect.signature` filter) and its behaviour when
called — a returned value or a raised exception (`Except.error`). -/
structure IngredientFunc where
  sig_params : List String
  run : List (String × Value) → Except String Value

/-- Registry of callables built by the executor-side PantryManager. -/
abbrev FuncRegistry := List (String × IngredientFunc)

/-- The executor-side PantryManager.get_ingredient: `self._registry.get(name)`. -/
def get_ingredient_func (registry : FuncRegistry) (name : String) :
    Option IngredientFunc :=
  (registry.find? (fun p => p.1 == name)).map (fun p => p.2)

/-- Step from `kitchen/core/recipe_parser.py` (pydantic model), with its
field defaults. -/
structure Step where
  name : String
  ingredient : String
  params : List (String × Value) := []
  description : Option String := none
  on_failure : String := "abort"

/-- Step.validate_on_failure: the pydantic validator rejecting anything but
`abort` and `continue`. -/
def validate_on_failure (value : String) : Except String String :=
  if value ∉ ["abort", "continue"] then
    Except.error "on_failure must be either 'abort' or 'continue'"
  else Except.ok value

/-- Python's `str.startswith`, via character lists. -/
def str_startswith (s pre : String) : Bool :=
  pre.toList.isPrefixOf s.toList

/-- Python's `str.endswith`, via character lists. -/
def str_endswith (s suf : String) : Bool :=
  suf.toList.isSuffixOf s.toList

/-- Python's `str.strip(chars)`: remove characters of the set from both
ends. -/
def py_strip_chars (cs : List Char) (s : String) : String :=
  String.mk
    (((s.toList.dropWhile (fun c => decide (c ∈ cs))).reverse.dropWhile
        (fun c => decide (c ∈ cs))).reverse)

/-- StepExecutor._resolve_params: a string value that starts with `{{` and
ends with `}}` is a context reference — strip `{`, `}` and spaces from its
ends and look the remaining key up, raising `KeyError` (here
`Except.error`) when absent; every other value is kept literally. -/
def resolve_params :
    List (String × Value) → Ctx → Except String (List (String × Value))
  | [], _ => Except.ok []
  | (key, Value.str s) :: rest, context =>
    if str_startswith s "\x7b\x7b" && str_endswith s "\x7d\x7d" then
      let context_key := py_strip_chars ['\x7b', '\x7d', ' '] s
      match ctx_lookup context context_key with
      | none => Except.error ("Context key '" ++ context_key ++ "' not found.")
      | some w => (resolve_params rest context).map (fun r => (key, w) :: r)
    else (resolve_params rest context).map (fun r => (key, Value.str s) :: r)
  | (key, value) :: rest, context =>
    (resolve_params rest context).map (fun r => (key, value) :: r)

/-- StepResult from `kitchen/core/step_executor.py`. -/
structure StepResult where
  success : Bool
  message : String
  output : Option Value := none
deriving DecidableEq

/-- StepExecutor.execute_step: look the ingredient up (failure result when
absent), resolve parameters (the `except KeyError` turns a resolution
failure into a failure result), filter the resolved parameters by the
callable's signature, invoke it, and catch any raised exception as a
failure result. The embedding returns `StepResult` unconditionally: the
executor never propagates an ingredient's exception. -/
def execute_step (registry : FuncRegistry) (step : Step) (context : Ctx) :
    StepResult :=
  match get_ingredient_func registry step.ingredient with
  | none =>
    { success := false
      message := "Ingredient '" ++ step.ingredient ++
        "' not found. Cannot execute step '" ++ step.name ++ "'." }
  | some ingredient_func =>
    match resolve_params step.params context with
    | Except.error e =>
      { success := false
        message := "Failed to resolve context key in params for step '" ++
          step.name ++ "': " ++ e }
    | Except.ok resolved_params =>
      match ingredient_func.run
          (resolved_params.filter
            (fun kv => ingredient_func.sig_params.contains kv.1)) with
      | Except.error e =>
        { success := false
          message := "An error occurred during execution of step '" ++
            step.name ++ "': " ++ e }
      | Except.ok out =>
        { success := true
          message := "Step '" ++ step.name ++ "' executed successfully."
          output := some out }

/-- A recipe step as KitchenEngine._execute_step reads it: a dict with an
`operation` name (possibly absent) and a `parameters` map. Recipe documents
may also carry an `on_failure` field (the `Step` schema declares it); the
engine code never reads it, which the definitions below make visible. -/
structure EngineStep where
  operation : Option String
  parameters : List (String × Value) := []
  on_failure : String := "abort"

/-- An operation object from the engine's OperationRegistry: called with
the parameter map and the (mutable) context, it returns a value or raises,
and leaves the context in some state. -/
structure Operation where
  execute : List (String × Value) → Ctx → Except String Value × Ctx

/-- The per-step result dict KitchenEngine._execute_step builds (the echoed
`step`/`operation` fields are omitted). -/
structure EngineStepResult where
  status : String
  message : Option String := none
  result : Option Value := none
deriving DecidableEq

/-- OperationRegistry.get_operation as the engine uses it (a missing
`operation` field gives `None`, which is not found). -/
def get_operation (registry : List (String × Operation))
    (name : Option String) : Option Operation :=
  match name with
  | none => none
  | some n => (registry.find? (fun p => p.1 == n)).map (fun p => p.2)

/-- KitchenEngine._execute_step: missing operation gives an error dict;
an exception from `operation.execute` is caught into an error dict;
otherwise a success dict. The engine itself never writes to the context —
only the operation's own effect on it survives. -/
def engine_execute_step (registry : List (String × Operation))
    (step : EngineStep) (context : Ctx) : EngineStepResult × Ctx :=
  match get_operation registry step.operation with
  | none => ({ status := "error", message := some "Operation not found" }, context)
  | some op =>
    match op.execute step.parameters context with
    | (Except.error e, context') =>
      ({ status := "error",
         message := some ("Step execution failed: " ++ e) }, context')
    | (Except.ok v, context') =>
      ({ status := "success", result := some v }, context')

/-- The step loop of KitchenEngine.execute_recipe: execute each step in
order, append its result, and `break` as soon as a result has status
`error` — regardless of any per-step failure policy. -/
def engine_execute_steps (registry : List (String × Operation)) :
    List EngineStep → Ctx → List EngineStepResult × Ctx
  | [], context => ([], context)
  | step :: rest, context =>
    if (engine_execute_step registry step context).1.status == "error" then
      ([(engine_execute_step registry step context).1],
       (engine_execute_step registry step context).2)
    else
      ((engine_execute_step registry step context).1 ::
         (engine_execute_steps registry rest
           (engine_execute_step registry step context).2).1,
       (engine_execute_steps registry rest
         (engine_execute_step registry step context).2).2)

/-- The final status computed by KitchenEngine.execute_recipe:
`"completed" if all(r["status"] == "success" for r in results) else "failed"`.
The engine has no other terminal statuses. -/
def engine_final_status (results : List EngineStepResult) : String :=
  if results.all (fun r => r.status == "success") then "completed" else "failed"

/-! Helper lemmas for the `{{ path }}` parameter grammar. -/

theorem dropWhile_cons_pos (p : Char → Bool) (a : Char) (l : List Char)
    (h : p a = true) : (a :: l).dropWhile p = l.dropWhile p := by
  simp [List.dropWhile_cons, h]

theorem dropWhile_cons_neg (p : Char → Bool) (a : Char) (l : List Char)
    (h : p a = false) : (a :: l).dropWhile p = a :: l := by
  simp [List.dropWhile_cons, h]

theorem find?_pred {α : Type} (p : α → Bool) :
    ∀ (l : List α) (a : α), l.find? p = some a → p a = true ∧ a ∈ l := by
  intro l
  induction l with
  | nil => intro a h; simp [List.find?] at h
  | cons x xs ih =>
    intro a h
    cases hx : p x with
    | true =>
      rw [List.find?_cons_of_pos _ hx] at h
      injection h with h
      subst h
      exact ⟨hx, List.mem_cons_self _ _⟩
    | false =>
      rw [List.find?_cons_of_neg _ (by simp [hx])] at h
      obtain ⟨h1, h2⟩ := ih a h
      exact ⟨h1, List.mem_cons_of_mem _ h2⟩

theorem delimited_startswith (path : String) :
    str_startswith ("\x7b\x7b " ++ path ++ " \x7d\x7d") "\x7b\x7b" = true := by
  unfold str_startswith
  rw [List.isPrefixOf_iff_prefix]
  exact ⟨' ' :: (path.toList ++ [' ', '\x7d', '\x7d']), rfl⟩

theorem delimited_endswith (path : String) :
    str_endswith ("\x7b\x7b " ++ path ++ " \x7d\x7d") "\x7d\x7d" = true := by
  unfold str_endswith
  rw [List.isSuffixOf_iff_suffix]
  refine ⟨'\x7b' :: '\x7b' :: ' ' :: (path.toList ++ [' ']), ?_⟩
  show ('\x7b' :: '\x7b' :: ' ' :: (path.toList ++ [' '])) ++ ['\x7d', '\x7d']
      = '\x7b' :: '\x7b' :: ' ' :: (path.toList ++ [' ', '\x7d', '\x7d'])
  simp

theorem py_strip_chars_delimited (path : String) (hne : path ≠ "")
    (hch : ∀ c ∈ path.toList, ¬(c ∈ (['\x7b', '\x7d', ' '] : List Char))) :
    py_strip_chars ['\x7b', '\x7d', ' '] ("\x7b\x7b " ++ path ++ " \x7d\x7d")
      = path := by
  have hpnil : path.toList ≠ [] := by
    intro h0
    apply hne
    cases path with
    | mk data =>
      simp at h0
      simp [h0]
  obtain ⟨c0, rest, hsplit⟩ := List.exists_cons_of_ne_nil hpnil
  have hrevne : path.toList.reverse ≠ [] := by simpa using hpnil
  obtain ⟨cl, rrest, hrsplit⟩ := List.exists_cons_of_ne_nil hrevne
  have hc0 : (decide (c0 ∈ (['\x7b', '\x7d', ' '] : List Char)) : Bool) = false := by
    have := hch c0 (by rw [hsplit]; exact List.mem_cons_self _ _)
    simpa using this
  have hclmem : cl ∈ path.toList := by
    have : cl ∈ path.toList.reverse := by
      rw [hrsplit]; exact List.mem_cons_self _ _
    simpa using this
  have hcl : (decide (cl ∈ (['\x7b', '\x7d', ' '] : List Char)) : Bool) = false := by
    have := hch cl hclmem
    simpa using this
  have harg : ("\x7b\x7b " ++ path ++ " \x7d\x7d").toList
      = '\x7b' :: '\x7b' :: ' ' :: (path.toList ++ [' ', '\x7d', '\x7d']) := rfl
  have hdrop1 :
      List.dropWhile (fun c => decide (c ∈ (['\x7b', '\x7d', ' '] : List Char)))
        ('\x7b' :: '\x7b' :: ' ' :: (path.toList ++ [' ', '\x7d', '\x7d']))
        = path.toList ++ [' ', '\x7d', '\x7d'] := by
    rw [dropWhile_cons_pos _ _ _ (by decide), dropWhile_cons_pos _ _ _ (by decide),
        dropWhile_cons_pos _ _ _ (by decide), hsplit, List.cons_append,
        dropWhile_cons_neg _ _ _ hc0]
  have hrev_eq : (path.toList ++ [' ', '\x7d', '\x7d']).reverse
      = '\x7d' :: '\x7d' :: ' ' :: path.toList.reverse := by
    simp
  have hdrop2 :
      List.dropWhile (fun c => decide (c ∈ (['\x7b', '\x7d', ' '] : List Char)))
        ('\x7d' :: '\x7d' :: ' ' :: path.toList.reverse)
        = path.toList.reverse := by
    rw [dropWhile_cons_pos _ _ _ (by decide), dropWhile_cons_pos _ _ _ (by decide),
        dropWhile_cons_pos _ _ _ (by decide), hrsplit,
        dropWhile_cons_neg _ _ _ hcl]
  unfold py_strip_chars
  rw [harg, hdrop1, hrev_eq, hdrop2, List.reverse_reverse]
  cases path with
  | mk data => rfl

/-! Concrete fixtures used by the counterexamples and witnesses below. -/

/-- A registered public ingredient. -/
def w_ing_public : IngredientMetadata :=
  { id := "tool.file_utils", name := "File Utils", description := "d"
    version := "1.0.0", category := IngredientCategory.TOOLS
    dependencies := [], tags := ["t"], author := "a"
    created := "2025-07-08", updated := "2025-07-08"
    access_level := AccessLevel.PUBLIC }

/-- A one-ingredient store. -/
def w_store : Store := [w_ing_public]

/-- A different record under the same id as `w_ing_public`. -/
def w_new_ing : IngredientMetadata := { w_ing_public with name := "File Utils v2" }

/-- An ingredient whose id violates the id convention (uppercase letter). -/
def w_bad_ing : IngredientMetadata :=
  { id := "Bad.Id", name := "Bad", description := "d", version := "1.0.0"
    category := IngredientCategory.TOOLS, dependencies := [], tags := ["t"]
    author := "a", created := "c", updated := "u" }

/-- An ingredient that lists itself as a dependency. -/
def w_self_ing : IngredientMetadata :=
  { id := "tool.selfdep", name := "Self", description := "d", version := "1.0.0"
    category := IngredientCategory.TOOLS, dependencies := ["tool.selfdep"]
    tags := ["t"], author := "a", created := "c", updated := "u" }

/-- Ingredient `tool.b`, no dependencies. -/
def w_ing_b : IngredientMetadata :=
  { id := "tool.b", name := "B", description := "d", version := "1.0.0"
    category := IngredientCategory.TOOLS, dependencies := [], tags := ["t"]
    author := "a", created := "c", updated := "u" }

/-- Ingredient `tool.a`, depending on `tool.b`. -/
def w_ing_a : IngredientMetadata :=
  { id := "tool.a", name := "A", description := "d", version := "1.0.0"
    category := IngredientCategory.TOOLS, dependencies := ["tool.b"]
    tags := ["t"], author := "a", created := "c", updated := "u" }

/-- A store where `tool.a` depends on `tool.b`. -/
def w_dep_store : Store := [w_ing_a, w_ing_b]

/-- An executor-side callable that always raises. -/
def w_fail_func : IngredientFunc :=
  { sig_params := []
    run := fun _ => Except.error "This task is designed to fail." }

/-- Executor registry holding the failing callable. -/
def w_func_registry : FuncRegistry := [("test_tasks.fail_task", w_fail_func)]

/-- A step invoking the failing callable with no parameters. -/
def w_fail_step : Step :=
  { name := "failing_step", ingredient := "test_tasks.fail_task" }

/-- A step whose parameter references a context path that does not resolve. -/
def w_ref_step : Step :=
  { name := "s2", ingredient := "test_tasks.fail_task"
    params := [("a", Value.str "\x7b\x7bsteps.unknown.output\x7d\x7d")] }

/-- An engine operation that raises. -/
def w_fail_op : Operation :=
  { execute := fun _ context => (Except.error "boom", context) }

/-- An engine operation that succeeds and leaves the context alone. -/
def w_ok_op : Operation :=
  { execute := fun _ context => (Except.ok (Value.str "ok"), context) }

/-- Engine registry with one failing and one succeeding operation. -/
def w_engine_registry : List (String × Operation) :=
  [("fail_op", w_fail_op), ("ok_op", w_ok_op)]

/-- Failing first step with on-failure policy `abort`. -/
def w_s1_abort : EngineStep := { operation := some "fail_op" }

/-- Failing first step with on-failure policy `continue`. -/
def w_s1_continue : EngineStep :=
  { operation := some "fail_op", on_failure := "continue" }

/-- Succeeding second step. -/
def w_s2 : EngineStep := { operation := some "ok_op" }

/-! Claim theorems. -/

/-- C1 (counterexample): for a recipe whose first step fails under policy
`abort` followed by a second step, the engine's run does not finish with
status `ABORTED` and the context does not contain `steps.s1.success`: the
result list is the single error result (so s2 never executes, as claimed),
but the final status is the engine's `"failed"` and the context is left
untouched, with no `steps.s1.success` key. -/
theorem engine_abort_claim_counterexample :
    (engine_execute_steps w_engine_registry [w_s1_abort, w_s2] []).1 =
      [{ status := "error", message := some "Step execution failed: boom" }]
  ∧ engine_final_status
      (engine_execute_steps w_engine_registry [w_s1_abort, w_s2] []).1 = "failed"
  ∧ engine_final_status
      (engine_execute_steps w_engine_registry [w_s1_abort, w_s2] []).1 ≠ "ABORTED"
  ∧ (engine_execute_steps w_engine_registry [w_s1_abort, w_s2] []).2 = []
  ∧ ctx_lookup (engine_execute_steps w_engine_registry [w_s1_abort, w_s2] []).2
      "steps.s1.success" = none := by
  refine ⟨rfl, rfl, ?_, rfl, rfl⟩
  decide

/-- C1 (amended): when the first step of a run errors, the engine stops —
the result list is exactly that step's error result (following steps never
execute), the final status is `"failed"` (the engine has no `ABORTED`
status), and the engine itself writes nothing into the context: the
returned context is whatever the failing operation left behind, with no
`steps.<name>.success` bookkeeping. -/
theorem engine_stops_on_first_error (registry : List (String × Operation))
    (s1 : EngineStep) (rest : List EngineStep) (context : Ctx)
    (h : (engine_execute_step registry s1 context).1.status = "error") :
    engine_execute_steps registry (s1 :: rest) context =
      ([(engine_execute_step registry s1 context).1],
       (engine_execute_step registry s1 context).2)
  ∧ engine_final_status
      (engine_execute_steps registry (s1 :: rest) context).1 = "failed" := by
  have hb : ((engine_execute_step registry s1 context).1.status == "error") = true := by
    simp [h]
  have h1 : engine_execute_steps registry (s1 :: rest) context =
      ([(engine_execute_step registry s1 context).1],
       (engine_execute_step registry s1 context).2) := by
    simp only [engine_execute_steps, hb, if_true]
  refine ⟨h1, ?_⟩
  rw [h1]
  simp [engine_final_status, h]

/-- C1 (witness): the amended theorem applied to the concrete aborting
recipe. -/
theorem engine_stops_on_first_error_witness :
    (engine_execute_step w_engine_registry w_s1_abort []).1.status = "error"
  ∧ (engine_execute_steps w_engine_registry [w_s1_abort, w_s2] [] =
      ([(engine_execute_step w_engine_registry w_s1_abort []).1],
       (engine_execute_step w_engine_registry w_s1_abort []).2)
     ∧ engine_final_status
        (engine_execute_steps w_engine_registry [w_s1_abort, w_s2] []).1 = "failed") :=
  ⟨rfl, engine_stops_on_first_error w_engine_registry w_s1_abort [w_s2] [] rfl⟩

/-- C2: the engine ignores the `continue` on-failure policy: with a first
step that fails and carries `on_failure = "continue"`, the second step is
still never executed (one result only) and the run's final status is
`"failed"`, not `COMPLETED_WITH_FAILURES`. This contradicts the policy the
recipe schema itself declares. -/
theorem engine_continue_policy_ignored :
    w_s1_continue.on_failure = "continue"
  ∧ (engine_execute_steps w_engine_registry [w_s1_continue, w_s2] []).1.length = 1
  ∧ engine_final_status
      (engine_execute_steps w_engine_registry [w_s1_continue, w_s2] []).1 = "failed"
  ∧ engine_final_status
      (engine_execute_steps w_engine_registry [w_s1_continue, w_s2] []).1
      ≠ "COMPLETED_WITH_FAILURES" := by
  refine ⟨rfl, rfl, rfl, ?_⟩
  decide

/-- C3: for a registered ingredient, `can_access` decides exactly by the
spec's first-match rule list; in particular any caller may read a public
ingredient, and an admin identity may write any registered ingredient. -/
theorem can_access_rule_order (store : Store)
    (user_id admin_id ingredient_id : String) (permission : Permission)
    (ing : IngredientMetadata)
    (hreg : get_ingredient store ingredient_id = some ing)
    (hadm : is_admin admin_id = true) :
    can_access store user_id ingredient_id permission =
      spec_access_decision user_id ing permission
  ∧ (ing.access_level = AccessLevel.PUBLIC →
      can_access store user_id ingredient_id Permission.READ = true)
  ∧ can_access store admin_id ingredient_id Permission.WRITE = true := by
  refine ⟨?_, ?_, ?_⟩
  · simp [can_access, hreg, spec_access_decision]
  · intro hpub
    simp [can_access, hreg, hpub]
  · simp [can_access, hreg, hadm]

/-- C3 (witness): the rule-order theorem applied to a concrete store, a
plain caller and the admin caller. -/
theorem can_access_rule_order_witness :
    get_ingredient w_store "tool.file_utils" = some w_ing_public
  ∧ is_admin "admin" = true
  ∧ (can_access w_store "alice" "tool.file_utils" Permission.READ =
       spec_access_decision "alice" w_ing_public Permission.READ
     ∧ (w_ing_public.access_level = AccessLevel.PUBLIC →
         can_access w_store "alice" "tool.file_utils" Permission.READ = true)
     ∧ can_access w_store "admin" "tool.file_utils" Permission.WRITE = true) :=
  ⟨by decide, by decide,
   can_access_rule_order w_store "alice" "admin" "tool.file_utils"
     Permission.READ w_ing_public (by decide) (by decide)⟩

/-- C4: the circular-dependency branch of `check_conflicts` can never fire:
the target id is always the last element of the post-order traversal and
`resolved[:-1]` removes exactly it, so the id is never inside its own
resolved set; concretely, a store whose only ingredient depends on itself
yields no conflict at all, against the documented intent of the check. -/
theorem check_conflicts_cycle_never_reported :
    check_conflicts [w_self_ing] "tool.selfdep" = []
  ∧ ∀ (store : Store) (ingredient_id : String),
      ingredient_id ∉ resolve_dependencies store ingredient_id := by
  constructor
  · have hnot := (resolveStep_top [w_self_ing] "tool.selfdep").2.2
    simp only [check_conflicts]
    rw [if_neg hnot]
    decide
  · intro store ingredient_id
    exact (resolveStep_top store ingredient_id).2.2

/-- C5: when registered ingredient A lists B among its dependencies and
B is a different id, `resolve_dependencies A` contains B; A itself is
excluded from the result; and the full post-order traversal is exactly the
result followed by A, so B precedes A in the traversal order. -/
theorem resolve_dependencies_contains_and_orders (store : Store)
    (A B : String) (ingA : IngredientMetadata)
    (hA : get_ingredient store A = some ingA)
    (hB : B ∈ ingA.dependencies) (hBA : B ≠ A) :
    B ∈ resolve_dependencies store A
  ∧ A ∉ resolve_dependencies store A
  ∧ (resolveStep store (totalFuel store) ([], []) A).2 =
      resolve_dependencies store A ++ [A] := by
  obtain ⟨hacc, hfull, hnot⟩ := resolveStep_top store A
  refine ⟨?_, hnot, hfull⟩
  have hdeps : get_dependencies store A = ingA.dependencies := by
    simp [get_dependencies, hA]
  rw [hacc, resolveList_eq_foldl]
  have hBdeps : B ∈ get_dependencies store A := by rw [hdeps]; exact hB
  have hvis : B ∈ (List.foldl
      (resolveStep store ((store.map (fun x => x.dependencies.length)).sum + 1))
      ([A], []) (get_dependencies store A)).1 :=
    foldl_visits_elem _
      (fun st d => resolveStep_visited_mono store _ st d)
      (fun st d => resolveStep_visits_self store _ st d (Nat.succ_pos _))
      (get_dependencies store A) ([A], []) B hBdeps
  rcases foldl_visited_covered _
      (fun st d => resolveStep_acc_extends store _ st d)
      (fun st d e => resolveStep_visited_covered store _ st d e)
      (get_dependencies store A) ([A], []) B hvis with h | h
  · exact absurd (by simpa using h) hBA
  · exact h

/-- C5 (witness): the ordering theorem applied to the concrete store where
`tool.a` depends on `tool.b`. -/
theorem resolve_dependencies_contains_and_orders_witness :
    get_ingredient w_dep_store "tool.a" = some w_ing_a
  ∧ "tool.b" ∈ w_ing_a.dependencies
  ∧ ("tool.b" ∈ resolve_dependencies w_dep_store "tool.a"
     ∧ "tool.a" ∉ resolve_dependencies w_dep_store "tool.a"
     ∧ (resolveStep w_dep_store (totalFuel w_dep_store) ([], []) "tool.a").2 =
         resolve_dependencies w_dep_store "tool.a" ++ ["tool.a"]) :=
  ⟨by decide, by decide,
   resolve_dependencies_contains_and_orders w_dep_store "tool.a" "tool.b"
     w_ing_a (by decide) (by decide) (by decide)⟩

/-- C6: the registration facade validates before persisting — whenever
validation reports an error the facade returns an unsuccessful result with
the store untouched; in particular an id containing an uppercase letter or
a space fails validation with the structural error
`Invalid ingredient ID format`, so its registration is rejected. -/
theorem registration_validates_before_persisting (store : Store)
    (ing : IngredientMetadata) (c : Char)
    (hc : c ∈ ing.id.toList) (hcu : c.isUpper = true ∨ c = ' ') :
    (∀ (s : Store) (i : IngredientMetadata),
        (validate_ingredient s i).valid = false →
          pantry_system_register_ingredient s i = Except.ok (false, s))
  ∧ (validate_ingredient store ing).valid = false
  ∧ ("Invalid ingredient ID format: " ++ ing.id) ∈
      (validate_ingredient store ing).errors
  ∧ pantry_system_register_ingredient store ing = Except.ok (false, store) := by
  have hgen : ∀ (s : Store) (i : IngredientMetadata),
      (validate_ingredient s i).valid = false →
        pantry_system_register_ingredient s i = Except.ok (false, s) := by
    intro s i h
    simp [pantry_system_register_ingredient, h]
  have hne : ing.id ≠ "" := by
    intro h0
    rw [h0] at hc
    have h1 : ("" : String).toList = [] := rfl
    rw [h1] at hc
    exact List.not_mem_nil _ hc
  have hvalid : is_valid_id ing.id = false := by
    rcases hcu with hu | hsp
    · have hall : ing.id.toList.all (fun ch => !ch.isUpper) = false := by
        cases hcase : ing.id.toList.all (fun ch => !ch.isUpper) with
        | false => rfl
        | true =>
          exfalso
          have h2 := List.all_eq_true.mp hcase c hc
          rw [hu] at h2
          simp at h2
      have hpy : py_islower ing.id = false := by
        unfold py_islower
        rw [hall, Bool.and_false]
      unfold is_valid_id
      rw [hpy]
      simp
    · have hmem : (' ' : Char) ∈ ing.id.toList := hsp ▸ hc
      unfold is_valid_id
      rw [decide_eq_true hmem]
      simp
  have hval2 : (validate_ingredient store ing).valid = false := by
    simp [validate_ingredient, hne, hvalid]
  refine ⟨hgen, hval2, ?_, hgen store ing hval2⟩
  simp [validate_ingredient, hne, hvalid]

/-- C6 (witness): the validation-before-persisting theorem applied to the
uppercase id `Bad.Id` on the empty store. -/
theorem registration_validates_before_persisting_witness :
    'B' ∈ w_bad_ing.id.toList
  ∧ ('B'.isUpper = true ∨ 'B' = ' ')
  ∧ ((∀ (s : Store) (i : IngredientMetadata),
        (validate_ingredient s i).valid = false →
          pantry_system_register_ingredient s i = Except.ok (false, s))
     ∧ (validate_ingredient [] w_bad_ing).valid = false
     ∧ ("Invalid ingredient ID format: " ++ w_bad_ing.id) ∈
         (validate_ingredient [] w_bad_ing).errors
     ∧ pantry_system_register_ingredient [] w_bad_ing = Except.ok (false, [])) :=
  ⟨by decide, by decide,
   registration_validates_before_persisting [] w_bad_ing 'B' (by decide) (by decide)⟩

/-- C7 (counterexample): registering a second record under an id already in
the store does not succeed and does not overwrite: the insert is refused
(`False` return, store unchanged) and `get` still returns the original
record, which differs from the newly offered one. -/
theorem reregistration_counterexample :
    register_ingredient [w_ing_public] w_new_ing = (false, [w_ing_public])
  ∧ get_ingredient [w_ing_public] "tool.file_utils" = some w_ing_public
  ∧ w_ing_public ≠ w_new_ing := by
  refine ⟨by decide, by decide, by decide⟩

/-- C7 (amended): registering under an id that is already present fails —
the primary-key violation makes `register_ingredient` return `False` with
the store unchanged, and a subsequent `get` still returns the previously
stored record. -/
theorem reregistration_fails_and_preserves (store : Store)
    (ing old : IngredientMetadata)
    (h : get_ingredient store ing.id = some old) :
    register_ingredient store ing = (false, store)
  ∧ get_ingredient (register_ingredient store ing).2 ing.id = some old := by
  have h' : store.find? (fun i => i.id == ing.id) = some old := h
  obtain ⟨hpred, hmem⟩ := find?_pred (fun i => i.id == ing.id) store old h'
  have hany : store.any (fun i => i.id == ing.id) = true :=
    List.any_eq_true.mpr ⟨old, hmem, hpred⟩
  constructor
  · simp [register_ingredient, hany]
  · simp only [register_ingredient, hany, if_true]
    exact h

/-- C7 (witness): the amended theorem applied to the concrete duplicate
registration. -/
theorem reregistration_fails_and_preserves_witness :
    get_ingredient [w_ing_public] w_new_ing.id = some w_ing_public
  ∧ (register_ingredient [w_ing_public] w_new_ing = (false, [w_ing_public])
     ∧ get_ingredient (register_ingredient [w_ing_public] w_new_ing).2
         w_new_ing.id = some w_ing_public) :=
  ⟨by decide,
   reregistration_fails_and_preserves [w_ing_public] w_new_ing w_ing_public
     (by decide)⟩

/-- C8: an exception raised by the ingredient callable is caught at the
executor boundary and converted into a failed `StepResult` with the wrapped
message and no output; `execute_step` always returns a result value, never
propagating the ingredient's exception. -/
theorem execute_step_returns_failure_as_data (registry : FuncRegistry)
    (step : Step) (context : Ctx) (f : IngredientFunc)
    (ps : List (String × Value)) (e : String)
    (hf : get_ingredient_func registry step.ingredient = some f)
    (hres : resolve_params step.params context = Except.ok ps)
    (hrun : f.run (ps.filter (fun kv => f.sig_params.contains kv.1)) =
      Except.error e) :
    execute_step registry step context =
      { success := false
        message := "An error occurred during execution of step '" ++
          step.name ++ "': " ++ e
        output := none } := by
  simp only [execute_step, hf, hres, hrun]

/-- C8 (witness): the exception-catching theorem applied to the concrete
always-failing ingredient. -/
theorem execute_step_returns_failure_as_data_witness :
    get_ingredient_func w_func_registry w_fail_step.ingredient = some w_fail_func
  ∧ resolve_params w_fail_step.params [] = Except.ok []
  ∧ w_fail_func.run
      (List.filter (fun kv => w_fail_func.sig_params.contains kv.1) []) =
      Except.error "This task is designed to fail."
  ∧ execute_step w_func_registry w_fail_step [] =
      { success := false
        message := "An error occurred during execution of step '" ++
          w_fail_step.name ++ "': " ++ "This task is designed to fail."
        output := none } :=
  ⟨rfl, rfl, rfl,
   execute_step_returns_failure_as_data w_func_registry w_fail_step []
     w_fail_func [] "This task is designed to fail." rfl rfl rfl⟩

/-- C9: parameter resolution follows the whole-string template grammar: a
string value that is, in its entirety, `{{ path }}` is replaced by the
context value at `path` when present, and raises the context-resolution
error (`KeyError` in the source, the spec's `ContextResolutionError`) when
the path is absent; a value that is not a whole-string reference — in
particular any partially templated string — passes through literally; and a
resolution failure is contained to the failing step, which the executor
reports as a failed `StepResult`. -/
theorem resolve_params_template_grammar
    (key path : String) (w v' : Value) (context context_m : Ctx)
    (registry : FuncRegistry) (step : Step) (f : IngredientFunc) (e : String)
    (hne : path ≠ "")
    (hch : ∀ c ∈ path.toList, ¬(c ∈ (['\x7b', '\x7d', ' '] : List Char)))
    (hfound : ctx_lookup context path = some w)
    (hmiss : ctx_lookup context_m path = none)
    (hlit : ∀ s, v' = Value.str s →
      (str_startswith s "\x7b\x7b" && str_endswith s "\x7d\x7d") = false)
    (hf : get_ingredient_func registry step.ingredient = some f)
    (herr : resolve_params step.params context_m = Except.error e) :
    resolve_params [(key, Value.str ("\x7b\x7b " ++ path ++ " \x7d\x7d"))] context
      = Except.ok [(key, w)]
  ∧ resolve_params [(key, Value.str ("\x7b\x7b " ++ path ++ " \x7d\x7d"))] context_m
      = Except.error ("Context key '" ++ path ++ "' not found.")
  ∧ resolve_params [(key, v')] context = Except.ok [(key, v')]
  ∧ execute_step registry step context_m =
      { success := false
        message := "Failed to resolve context key in params for step '" ++
          step.name ++ "': " ++ e
        output := none } := by
  have hstrip := py_strip_chars_delimited path hne hch
  refine ⟨?_, ?_, ?_, ?_⟩
  · simp [resolve_params, delimited_startswith, delimited_endswith, hstrip,
      hfound, Except.map]
  · simp [resolve_params, delimited_startswith, delimited_endswith, hstrip,
      hmiss, Except.map]
  · cases v' with
    | str s =>
      have hfalse := hlit s rfl
      simp [resolve_params, hfalse, Except.map]
    | int n => simp [resolve_params, Except.map]
    | bool b => simp [resolve_params, Except.map]
    | vnone => simp [resolve_params, Except.map]
  · simp only [execute_step, hf, herr]

/-- C9 (witness): the template-grammar theorem applied to a present path, a
missing path, a partially templated literal, and the concrete failing
step. -/
theorem resolve_params_template_grammar_witness :
    ("previous_output" : String) ≠ ""
  ∧ (∀ c ∈ ("previous_output" : String).toList,
      ¬(c ∈ (['\x7b', '\x7d', ' '] : List Char)))
  ∧ ctx_lookup [("previous_output", Value.int 20)] "previous_output" =
      some (Value.int 20)
  ∧ ctx_lookup [] "previous_output" = none
  ∧ (resolve_params
        [("a", Value.str ("\x7b\x7b " ++ "previous_output" ++ " \x7d\x7d"))]
        [("previous_output", Value.int 20)] = Except.ok [("a", Value.int 20)]
     ∧ resolve_params
        [("a", Value.str ("\x7b\x7b " ++ "previous_output" ++ " \x7d\x7d"))]
        [] = Except.error ("Context key '" ++ "previous_output" ++ "' not found.")
     ∧ resolve_params [("a", Value.str "hello \x7b\x7bname\x7d\x7d")]
        [("previous_output", Value.int 20)] =
          Except.ok [("a", Value.str "hello \x7b\x7bname\x7d\x7d")]
     ∧ execute_step w_func_registry w_ref_step [] =
        { success := false
          message := "Failed to resolve context key in params for step '" ++
            w_ref_step.name ++ "': " ++
            "Context key 'steps.unknown.output' not found."
          output := none }) :=
  ⟨by decide, by decide, by decide, by decide,
   resolve_params_template_grammar "a" "previous_output" (Value.int 20)
     (Value.str "hello \x7b\x7bname\x7d\x7d")
     [("previous_output", Value.int 20)] [] w_func_registry w_ref_step
     w_fail_func "Context key 'steps.unknown.output' not found."
     (by decide) (by decide) (by decide) (by decide)
     (by intro s hs; cases hs; decide) rfl rfl⟩

/-- C10: for an ingredient id absent from the store, `can_access` denies
every caller — including admin identities — for every permission: the
absence check precedes every allow rule. -/
theorem can_access_unregistered_denied (store : Store)
    (user_id ingredient_id : String) (permission : Permission)
    (h : get_ingredient store ingredient_id = none) :
    can_access store user_id ingredient_id permission = false := by
  simp [can_access, h]

/-- C10 (witness): the denial theorem applied to an unregistered id and the
admin caller. -/
theorem can_access_unregistered_denied_witness :
    get_ingredient w_store "ghost.tool" = none
  ∧ can_access w_store "admin" "ghost.tool" Permission.ADMIN = false :=
  ⟨by decide,
   can_access_unregistered_denied w_store "admin" "ghost.tool"
     Permission.ADMIN (by decide)⟩

end KosKitchen
